import Mathlib

/-!
Verification of the media assembly pipeline of `src/encode.rs`
(soundcloud-embedder).  The Rust source is shallowly embedded: pure
functions become Lean functions over `Nat`/`Int`, the external effects
(HTTP fetches, image decoding, the vpx encoder, the opus probe, the webm
writer) become oracle fields of an environment record, and the sequence
of calls issued to the webm container writer is reified as a trace of
`MuxCall` values.
-/

/-! ## Colorspace conversion: `rgb_to_i420` (src/encode.rs lines 13-45) -/

/-- Rust helper inside `rgb_to_i420`:
`fn clamp(x: i32) -> u8 { x.min(255).max(0) as u8 }`. -/
def clamp (x : Int) : Nat := (max (min x 255) 0).toNat

/-- The per-pixel luma computation of `rgb_to_i420`:
`(66 * r + 129 * g + 25 * b + 128) / 256 + 16`, then clamped.
Rust `/` on `i32` truncates toward zero, which is `Int.tdiv`; the operands
stay far inside the `i32` range for 8-bit channel values. -/
def luma_formula (r g b : Nat) : Nat :=
  clamp ((66 * (r : Int) + 129 * (g : Int) + 25 * (b : Int) + 128).tdiv 256 + 16)

/-- The per-pixel chroma U computation of `rgb_to_i420`:
`(-38 * r - 74 * g + 112 * b + 128) / 256 + 128`, then clamped
(`i32` division truncating toward zero). -/
def chroma_u_formula (r g b : Nat) : Nat :=
  clamp (((-38) * (r : Int) - 74 * (g : Int) + 112 * (b : Int) + 128).tdiv 256 + 128)

/-- The per-pixel chroma V computation of `rgb_to_i420`:
`(112 * r - 94 * g - 18 * b + 128) / 256 + 128`, then clamped
(`i32` division truncating toward zero). -/
def chroma_v_formula (r g b : Nat) : Nat :=
  clamp ((112 * (r : Int) - 94 * (g : Int) - 18 * (b : Int) + 128).tdiv 256 + 128)

/-- The chroma U formula as the specification words it, reading `>> 8` as an
arithmetic (floor) shift, i.e. `Int.fdiv _ 256`.  Kept separate from
`chroma_u_formula` (which follows the source) so the two can be compared. -/
def chroma_u_spec (r g b : Nat) : Nat :=
  clamp (((-38) * (r : Int) - 74 * (g : Int) + 112 * (b : Int) + 128).fdiv 256 + 128)

/-- The chroma V formula as the specification words it, with an arithmetic
(floor) shift for `>> 8`. -/
def chroma_v_spec (r g b : Nat) : Nat :=
  clamp ((112 * (r : Int) - 94 * (g : Int) - 18 * (b : Int) + 128).fdiv 256 + 128)

/-- An 8-bit RGB raster (`image::RgbImage`): dimensions plus a pixel
accessor; each channel is a `u8`, modelled as `Fin 256`.
`pixel x y` models `image.get_pixel(x, y).0`. -/
structure RgbImage where
  width : Nat
  height : Nat
  pixel : Nat → Nat → Fin 256 × Fin 256 × Fin 256

/-- Luma sample of `rgb_to_i420` at pixel `(x, y)`. -/
def lumaAt (img : RgbImage) (x y : Nat) : Nat :=
  luma_formula (img.pixel x y).1 (img.pixel x y).2.1 (img.pixel x y).2.2

/-- Chroma U sample of `rgb_to_i420` at pixel `(x, y)`. -/
def uAt (img : RgbImage) (x y : Nat) : Nat :=
  chroma_u_formula (img.pixel x y).1 (img.pixel x y).2.1 (img.pixel x y).2.2

/-- Chroma V sample of `rgb_to_i420` at pixel `(x, y)`. -/
def vAt (img : RgbImage) (x y : Nat) : Nat :=
  chroma_v_formula (img.pixel x y).1 (img.pixel x y).2.1 (img.pixel x y).2.2

/-- Rust `Iterator::step_by(2)`: keeps every second element of a list,
starting with the first. -/
def stepBy2 {α : Type} : List α → List α
  | [] => []
  | [x] => [x]
  | x :: _ :: rest => x :: stepBy2 rest

/-- The luma plane written by the first loop nest of `rgb_to_i420`:
`y` over `0..height`, `x` over `0..width`, row major. -/
def lumaPlane (img : RgbImage) : List Nat :=
  (List.range img.height).flatMap fun y =>
    (List.range img.width).map fun x => lumaAt img x y

/-- The chroma U plane written by the second loop nest of `rgb_to_i420`:
`y` over `(0..height).step_by(2)`, `x` over `(0..width).step_by(2)`. -/
def uPlane (img : RgbImage) : List Nat :=
  (stepBy2 (List.range img.height)).flatMap fun y =>
    (stepBy2 (List.range img.width)).map fun x => uAt img x y

/-- The chroma V plane written by the third loop nest of `rgb_to_i420`. -/
def vPlane (img : RgbImage) : List Nat :=
  (stepBy2 (List.range img.height)).flatMap fun y =>
    (stepBy2 (List.range img.width)).map fun x => vAt img x y

/-- `rgb_to_i420` (src/encode.rs line 13): the single `dest` vector,
filled with the luma plane, then the U plane, then the V plane. -/
def rgb_to_i420 (img : RgbImage) : List Nat :=
  lumaPlane img ++ uPlane img ++ vPlane img

/-! ## Playlist parsing and segment download (src/encode.rs lines 54-70) -/

/-- Rust `str::split('\n')` over the characters of the playlist body:
splits on every newline, keeping empty pieces (a leading piece, pieces
between adjacent separators, and a trailing piece). -/
def splitNewline : List Char → List (List Char)
  | [] => [[]]
  | c :: rest =>
    if c = '\n' then [] :: splitNewline rest
    else
      match splitNewline rest with
      | [] => [[c]]
      | l :: ls => (c :: l) :: ls

/-- Rust `str::starts_with('#')`: the first character is the comment marker. -/
def startsWithHash : List Char → Bool
  | [] => false
  | c :: _ => c = '#'

/-- The `urls` value of `encode_video` (line 58):
`playlist.split('\n').filter(|line| !line.starts_with('#'))`. -/
def playlistUrls (playlist : List Char) : List (List Char) :=
  (splitNewline playlist).filter fun line => !startsWithHash line

/-- The spawned download task (lines 61-70): fetch every url in order and
concatenate the returned bytes; the first failed fetch aborts the task
with that error. -/
def downloadAll {ε : Type} (fetch : List Char → Except ε (List Nat)) :
    List (List Char) → Except ε (List Nat)
  | [] => .ok []
  | url :: rest =>
    match fetch url with
    | .error e => .error e
    | .ok bytes =>
      match downloadAll fetch rest with
      | .error e => .error e
      | .ok more => .ok (bytes ++ more)

/-- The urls for which the download task actually calls `request_bytes`:
every url up to and including the first failing one. -/
def downloadCalls {ε : Type} (fetch : List Char → Except ε (List Nat)) :
    List (List Char) → List (List Char)
  | [] => []
  | url :: rest =>
    match fetch url with
    | .error _ => [url]
    | .ok _ => url :: downloadCalls fetch rest

/-! ## The container writer call trace and the `encode_video` model -/

/-- One call issued to the webm container writer (`webm::mux::Segment` and
its two tracks), reified so the order of writer calls can be reasoned
about. -/
inductive MuxCall where
  | addVideoTrack (width height : Nat)
  | setColor
  | addAudioTrack (sampleRate : Int) (channels : Nat)
  | audioFrame (data : List Nat) (timestamp : Nat)
  | videoFrame (data : List Nat) (timestamp : Nat) (key : Bool)
  | finalize (duration : Nat)
  deriving DecidableEq, Repr

/-- The `Frame` struct defined inside `encode_video` (lines 87-91). -/
structure Frame where
  data : List Nat
  key : Bool
  pts : Int
  deriving DecidableEq, Repr

/-- `let sample_rate = 48000;` (line 125). -/
def sample_rate : Nat := 48000

/-- `let ns_per_sec = 100000000;` (line 126). -/
def ns_per_sec : Nat := 100000000

/-- `let ns_per_sample = ns_per_sec / sample_rate;` (line 127): integer
(floor) division of the two constants, performed once up front. -/
def ns_per_sample : Nat := ns_per_sec / sample_rate

/-- The timestamp passed to `vt.add_frame` (line 151):
`frame.pts as u64 * 1000000`, i.e. the `i64` pts cast (wrapping) to `u64`
and then multiplied in `u64` arithmetic. -/
def videoTimestamp (pts : Int) : Nat :=
  (pts % (2 ^ 64 : Int)).toNat * 1000000 % 2 ^ 64

/-- The external effects `encode_video` interacts with, one oracle field
per external call site.  The error type `ε` is abstract: the model only
propagates these values. -/
structure Env (ε : Type) where
  /-- `request_text(hls_url)` (line 54). -/
  manifestText : Except ε (List Char)
  /-- `serde_json::from_str::<UrlResult>` on the manifest body (line 54),
  extracting `res.url`. -/
  parseManifest : List Char → Except ε (List Char)
  /-- `request_text(&res.url)` (line 56): the playlist body. -/
  playlistText : List Char → Except ε (List Char)
  /-- `request_bytes(&url)` for one segment url (line 66). -/
  fetchSegment : List Char → Except ε (List Nat)
  /-- whether `webm::mux::Segment::new` (line 74) succeeds. -/
  canCreateSegment : Bool
  /-- `request_image(art_url)` (line 77). -/
  imageBytes : Except ε (List Nat)
  /-- JPEG decode plus `to_rgb8` (line 78). -/
  decodeImage : List Nat → Except ε RgbImage
  /-- the vpx encoder (lines 96-121): configuration, `encode(0, &data)` and
  the `finish()` drain, applied to the i420 data; yields the drained frames
  in emission order, or the first encoder error. -/
  vpxFrames : List Nat → Except ε (List Frame)
  /-- `opus::Decoder::new` (line 130). -/
  decoderNew : Except ε Unit
  /-- `ogg::PacketReader` (lines 135-137): the packet payloads read from
  the downloaded byte stream, or a stream parse error. -/
  parsePackets : List Nat → Except ε (List (List Nat))
  /-- `decoder.get_nb_samples(&packet.data)` (line 138). -/
  getNbSamples : List Nat → Except ε Nat
  /-- whether the webm writer accepts a given call: the `bool` returned by
  `set_color`, `add_frame` and `finalize`. -/
  accept : MuxCall → Bool

/-- The result of our model of `encode_video`: either an external error
propagated with the `?` operator, or one of the errors `encode_video`
raises itself with `anyhow!`. -/
inductive EncodeError (ε : Type) where
  /-- an external failure propagated with `?` -/
  | external (e : ε)
  /-- line 74: `Segment::new` returned `None` -/
  | segmentCreateFailed
  /-- line 83: `vt.set_color` returned false -/
  | setColorFailed
  /-- line 141: `at.add_frame` returned false -/
  | addAudioFrameFailed
  /-- line 152: `vt.add_frame` returned false -/
  | addVideoFrameFailed
  /-- line 157: `webm.finalize` returned false -/
  | finalizeFailed
  deriving DecidableEq, Repr

/-- The audio repacketizing loop (lines 137-147): for each ogg packet, probe
its sample count; on success append it to the audio track at the current
`offset` and advance `offset` by `samples * ns_per_sample`; on probe
failure only log and skip (the `Err` arm does not touch the track or the
clock).  Returns the audio-track calls issued, the final `offset`, and
whether the loop completed or aborted because `at.add_frame` returned
false. -/
def audioLoop {ε : Type} (env : Env ε) :
    List (List Nat) → Nat → List MuxCall × Nat × Except (EncodeError ε) Unit
  | [], offset => ([], offset, .ok ())
  | packet :: rest, offset =>
    match env.getNbSamples packet with
    | .ok samples =>
      let call := MuxCall.audioFrame packet offset
      if env.accept call then
        let next := audioLoop env rest (offset + samples * ns_per_sample)
        (call :: next.1, next.2)
      else
        ([call], offset, .error .addAudioFrameFailed)
    | .error _ => audioLoop env rest offset

/-- The video frame loop (lines 149-154): append every encoded frame with
its scaled timestamp and keyframe flag; abort if the writer rejects one. -/
def videoLoop {ε : Type} (env : Env ε) :
    List Frame → List MuxCall × Except (EncodeError ε) Unit
  | [] => ([], .ok ())
  | frame :: rest =>
    let call := MuxCall.videoFrame frame.data (videoTimestamp frame.pts) frame.key
    if env.accept call then
      let next := videoLoop env rest
      (call :: next.1, next.2)
    else
      ([call], .error .addVideoFrameFailed)

/-- Model of `encode_video` (src/encode.rs lines 48-162).  Returns the
trace of calls issued to the webm writer together with the result:
`.ok ()` exactly when the function returns `Ok(out)`, `.error _` on every
early return.  The spawned download task is `downloadAll`; its join point
(`download_task.await??`) is line 134, after the audio track is created. -/
def encode_video {ε : Type} (env : Env ε) : List MuxCall × Except (EncodeError ε) Unit :=
  match env.manifestText with
  | .error e => ([], .error (.external e))
  | .ok manifest =>
  match env.parseManifest manifest with
  | .error e => ([], .error (.external e))
  | .ok url =>
  match env.playlistText url with
  | .error e => ([], .error (.external e))
  | .ok playlist =>
  let downloaded := downloadAll env.fetchSegment (playlistUrls playlist)
  if !env.canCreateSegment then ([], .error .segmentCreateFailed) else
  match env.imageBytes with
  | .error e => ([], .error (.external e))
  | .ok bytes =>
  match env.decodeImage bytes with
  | .error e => ([], .error (.external e))
  | .ok cover_art =>
  let videoTrack := MuxCall.addVideoTrack cover_art.width cover_art.height
  if !env.accept MuxCall.setColor then
    ([videoTrack, MuxCall.setColor], .error .setColorFailed) else
  match env.vpxFrames (rgb_to_i420 cover_art) with
  | .error e => ([videoTrack, MuxCall.setColor], .error (.external e))
  | .ok frames =>
  let audioTrack := MuxCall.addAudioTrack (sample_rate : Int) 2
  match env.decoderNew with
  | .error e => ([videoTrack, MuxCall.setColor, audioTrack], .error (.external e))
  | .ok () =>
  match downloaded with
  | .error e => ([videoTrack, MuxCall.setColor, audioTrack], .error (.external e))
  | .ok data =>
  match env.parsePackets data with
  | .error e => ([videoTrack, MuxCall.setColor, audioTrack], .error (.external e))
  | .ok packets =>
  let audio := audioLoop env packets 0
  match audio.2.2 with
  | .error err =>
      ([videoTrack, MuxCall.setColor, audioTrack] ++ audio.1, .error err)
  | .ok () =>
  let video := videoLoop env frames
  match video.2 with
  | .error err =>
      ([videoTrack, MuxCall.setColor, audioTrack] ++ audio.1 ++ video.1, .error err)
  | .ok () =>
  let fin := MuxCall.finalize (audio.2.1 / 100000)
  if env.accept fin then
    ([videoTrack, MuxCall.setColor, audioTrack] ++ audio.1 ++ video.1 ++ [fin], .ok ())
  else
    ([videoTrack, MuxCall.setColor, audioTrack] ++ audio.1 ++ video.1 ++ [fin],
      .error .finalizeFailed)

/-! ## Derived predicates on traces -/

/-- Whether the opus probe succeeds on a packet. -/
def probeOk {ε : Type} (env : Env ε) (packet : List Nat) : Bool :=
  match env.getNbSamples packet with
  | .ok _ => true
  | .error _ => false

/-- The audio-track appends the repacketizing loop performs when the writer
accepts every frame: one append per successfully probed packet, in input
order, at the running clock value; skipped packets contribute nothing. -/
def audioAppends {ε : Type} (env : Env ε) : List (List Nat) → Nat → List MuxCall
  | [], _ => []
  | packet :: rest, offset =>
    match env.getNbSamples packet with
    | .ok samples =>
        MuxCall.audioFrame packet offset :: audioAppends env rest (offset + samples * ns_per_sample)
    | .error _ => audioAppends env rest offset

def isAudioFrame : MuxCall → Bool
  | .audioFrame _ _ => true
  | _ => false

def isVideoFrame : MuxCall → Bool
  | .videoFrame _ _ _ => true
  | _ => false

def isFinalize : MuxCall → Bool
  | .finalize _ => true
  | _ => false

/-- No audio-frame append occurs after any video-frame append. -/
def noInterleave : List MuxCall → Bool
  | [] => true
  | c :: rest => (!isVideoFrame c || rest.all fun d => !isAudioFrame d) && noInterleave rest

/-- No video-frame append occurs before the audio track is created. -/
def noVideoBeforeAudioTrack : List MuxCall → Bool
  | [] => true
  | MuxCall.addAudioTrack _ _ :: _ => true
  | MuxCall.videoFrame _ _ _ :: _ => false
  | _ :: rest => noVideoBeforeAudioTrack rest

instance {ε α : Type} [DecidableEq ε] [DecidableEq α] : DecidableEq (Except ε α) := fun x y =>
  match x, y with
  | .ok a, .ok b =>
      if h : a = b then .isTrue (congrArg Except.ok h)
      else .isFalse fun hc => h (Except.ok.inj hc)
  | .ok _, .error _ => .isFalse fun hc => Except.noConfusion hc
  | .error _, .ok _ => .isFalse fun hc => Except.noConfusion hc
  | .error e, .error f =>
      if h : e = f then .isTrue (congrArg Except.error h)
      else .isFalse fun hc => h (Except.error.inj hc)

/-! ## Concrete images, environments and oracles for witnesses -/

/-- A 1×1 cover image whose only pixel is RGB (255, 255, 0). -/
def yellowImage : RgbImage := ⟨1, 1, fun _ _ => (255, 255, 0)⟩

/-- A 4×4 solid-color image, every pixel RGB (200, 10, 30). -/
def img4 : RgbImage := ⟨4, 4, fun _ _ => (200, 10, 30)⟩

/-- A concrete environment in which every oracle succeeds: one playlist
line, one segment, a 1×1 image, one encoded frame, one audio packet that
probes to 960 samples, and a writer that accepts every call. -/
def envA : Env Nat where
  manifestText := .ok ['m']
  parseManifest := fun _ => .ok ['p']
  playlistText := fun _ => .ok ['u']
  fetchSegment := fun _ => .ok [9]
  canCreateSegment := true
  imageBytes := .ok [1]
  decodeImage := fun _ => .ok ⟨1, 1, fun _ _ => (0, 0, 0)⟩
  vpxFrames := fun _ => .ok [⟨[7], true, 0⟩]
  decoderNew := .ok ()
  parsePackets := fun _ => .ok [[3]]
  getNbSamples := fun _ => .ok 960
  accept := fun _ => true

/-- Like `envA`, but the opus probe fails on the packet `[2]` with error
code 7 and succeeds with 960 samples elsewhere. -/
def envB : Env Nat :=
  { envA with getNbSamples := fun p => if p = [2] then .error 7 else .ok 960 }

/-- The playlist of end-to-end scenario A: two segment lines and one
comment line. -/
def pl7 : List Char := ['a', '\n', '#', 'c', '\n', 'b']

/-- A fetch oracle for `pl7`: segment a yields bytes [1, 2], segment b
yields [3], anything else fails. -/
def fetch7 : List Char → Except Nat (List Nat) := fun u =>
  if u = ['a'] then .ok [1, 2] else if u = ['b'] then .ok [3] else .error 0

/-- The bytes `fetch7` returns on success. -/
def g7 : List Char → List Nat := fun u =>
  if u = ['a'] then [1, 2] else if u = ['b'] then [3] else []

/-- Like `envA`, but the manifest fetch fails with error 3. -/
def envManifestErr : Env Nat := { envA with manifestText := .error 3 }

/-- Like `envA`, but the manifest parse fails with error 4. -/
def envParseErr : Env Nat := { envA with parseManifest := fun _ => .error 4 }

/-- Like `envA`, but the playlist fetch fails with error 5. -/
def envPlaylistErr : Env Nat := { envA with playlistText := fun _ => .error 5 }

/-- Like `envA`, but every segment fetch fails with error 6. -/
def envSegErr : Env Nat := { envA with fetchSegment := fun _ => .error 6 }

/-- A fetch oracle that succeeds on segment a and fails elsewhere. -/
def fetch8 : List Char → Except Nat (List Nat) := fun u =>
  if u = ['a'] then .ok [1] else .error 6

/-- Like `envA`, but the playlist body ends in a newline and fetching the
empty url fails with error 6. -/
def env10 : Env Nat :=
  { envA with
      playlistText := fun _ => .ok ['u', '\n'],
      fetchSegment := fun u => if u = [] then .error 6 else .ok [9] }

/-! ## Sampling-grid lemmas -/

theorem stepBy2_map {α β : Type} (f : α → β) :
    ∀ l : List α, stepBy2 (l.map f) = (stepBy2 l).map f
  | [] => rfl
  | [_] => rfl
  | _ :: _ :: rest => by
      simp only [List.map_cons, stepBy2, stepBy2_map f rest]

theorem stepBy2_range (n : Nat) :
    stepBy2 (List.range n) = (List.range ((n + 1) / 2)).map (· * 2) := by
  induction n using Nat.twoStepInduction with
  | zero => rfl
  | one => rfl
  | more n ih _ =>
      rw [List.range_succ_eq_map, List.range_succ_eq_map, List.map_cons]
      show 0 :: stepBy2 (List.map Nat.succ (List.map Nat.succ (List.range n))) = _
      rw [stepBy2_map, stepBy2_map, ih]
      have hdiv : (n + 2 + 1) / 2 = (n + 1) / 2 + 1 := by omega
      rw [hdiv, List.range_succ_eq_map, List.map_cons, List.map_map, List.map_map,
        List.map_map]
      refine congrArg₂ _ rfl (List.map_congr_left fun k _ => ?_)
      simp only [Function.comp_apply, Nat.succ_eq_add_one]
      omega

theorem stepBy2_range_length (n : Nat) :
    (stepBy2 (List.range n)).length = (n + 1) / 2 := by
  rw [stepBy2_range, List.length_map, List.length_range]

theorem grid_length {α : Type} (f : Nat → Nat → α) (w : Nat) :
    ∀ l : List Nat, (l.flatMap fun y => (List.range w).map fun x => f x y).length = l.length * w
  | [] => by simp
  | y :: rest => by
      simp only [List.flatMap_cons, List.length_append, List.length_map, List.length_range,
        List.length_cons, grid_length f w rest]
      ring

theorem grid_get {α : Type} (f : Nat → Nat → α) (w x : Nat) (hx : x < w) :
    ∀ (l : List Nat) (i : Nat) (hi : i < l.length),
      (l.flatMap fun y => (List.range w).map fun x => f x y)[i * w + x]? = some (f x l[i])
  | [], i, hi => absurd hi (by simp)
  | y :: rest, 0, _ => by
      rw [List.flatMap_cons]
      have h0 : 0 * w + x = x := by ring
      rw [h0, List.getElem?_append_left (by simpa using hx)]
      simp [List.getElem?_range hx]
  | y :: rest, i + 1, hi => by
      have hidx : (i + 1) * w + x = w + (i * w + x) := by ring
      rw [List.flatMap_cons, hidx,
        List.getElem?_append_right (by simp only [List.length_map, List.length_range]; exact Nat.le_add_right _ _)]
      simp only [List.length_map, List.length_range, Nat.add_sub_cancel_left, List.getElem_cons_succ]
      exact grid_get f w x hx rest i (by simpa using hi)

/-- The U plane, re-indexed over the chroma grid `ceil(w/2) × ceil(h/2)`. -/
theorem uPlane_eq_grid (img : RgbImage) :
    uPlane img = (List.range ((img.height + 1) / 2)).flatMap fun cy =>
      (List.range ((img.width + 1) / 2)).map fun cx => uAt img (cx * 2) (cy * 2) := by
  unfold uPlane
  rw [stepBy2_range, stepBy2_range, List.flatMap_map]
  simp [List.map_map, Function.comp_def]

/-- The V plane, re-indexed over the chroma grid `ceil(w/2) × ceil(h/2)`. -/
theorem vPlane_eq_grid (img : RgbImage) :
    vPlane img = (List.range ((img.height + 1) / 2)).flatMap fun cy =>
      (List.range ((img.width + 1) / 2)).map fun cx => vAt img (cx * 2) (cy * 2) := by
  unfold vPlane
  rw [stepBy2_range, stepBy2_range, List.flatMap_map]
  simp [List.map_map, Function.comp_def]

/-! ## Loop characterization lemmas -/

theorem audioLoop_offset_le {ε : Type} (env : Env ε) :
    ∀ (packets : List (List Nat)) (offset : Nat), offset ≤ (audioLoop env packets offset).2.1
  | [], _ => Nat.le_refl _
  | packet :: rest, offset => by
      unfold audioLoop
      cases h : env.getNbSamples packet with
      | ok samples =>
          dsimp only
          split
          · exact le_trans (Nat.le_add_right _ _) (audioLoop_offset_le env rest _)
          · exact Nat.le_refl _
      | error e => exact audioLoop_offset_le env rest offset

theorem audioLoop_skip {ε : Type} (env : Env ε) (packet : List Nat) (rest : List (List Nat))
    (offset : Nat) (e : ε) (h : env.getNbSamples packet = .error e) :
    audioLoop env (packet :: rest) offset = audioLoop env rest offset := by
  conv_lhs => unfold audioLoop
  rw [h]

theorem audioLoop_step {ε : Type} (env : Env ε) (packet : List Nat) (rest : List (List Nat))
    (offset samples : Nat) (h : env.getNbSamples packet = .ok samples)
    (hacc : env.accept (MuxCall.audioFrame packet offset) = true) :
    audioLoop env (packet :: rest) offset =
      (MuxCall.audioFrame packet offset :: (audioLoop env rest (offset + samples * ns_per_sample)).1,
        (audioLoop env rest (offset + samples * ns_per_sample)).2) := by
  conv_lhs => unfold audioLoop
  rw [h]
  dsimp only
  rw [if_pos hacc]

theorem audioLoop_ok_calls {ε : Type} (env : Env ε) :
    ∀ (packets : List (List Nat)) (offset : Nat),
      (audioLoop env packets offset).2.2 = .ok () →
      (audioLoop env packets offset).1 = audioAppends env packets offset
  | [], _, _ => rfl
  | packet :: rest, offset, h => by
      unfold audioLoop at h ⊢
      conv_rhs => unfold audioAppends
      cases hp : env.getNbSamples packet with
      | ok samples =>
          rw [hp] at h
          dsimp only at h ⊢
          by_cases hacc : env.accept (MuxCall.audioFrame packet offset) = true
          · rw [if_pos hacc] at h ⊢
            exact congrArg _ (audioLoop_ok_calls env rest _ h)
          · rw [if_neg hacc] at h
            exact absurd h (by simp)
      | error e =>
          rw [hp] at h
          dsimp only at h ⊢
          exact audioLoop_ok_calls env rest offset h

theorem audioLoop_all_audio {ε : Type} (env : Env ε) :
    ∀ (packets : List (List Nat)) (offset : Nat),
      (audioLoop env packets offset).1.all isAudioFrame = true
  | [], _ => rfl
  | packet :: rest, offset => by
      unfold audioLoop
      cases hp : env.getNbSamples packet with
      | ok samples =>
          dsimp only
          split
          · simp [isAudioFrame, audioLoop_all_audio env rest]
          · simp [isAudioFrame]
      | error e => exact audioLoop_all_audio env rest offset

theorem audioAppends_length {ε : Type} (env : Env ε) :
    ∀ (packets : List (List Nat)) (offset : Nat),
      (audioAppends env packets offset).length = (packets.filter (probeOk env)).length
  | [], _ => rfl
  | packet :: rest, offset => by
      conv_lhs => unfold audioAppends
      rw [List.filter_cons]
      cases hp : env.getNbSamples packet with
      | ok samples =>
          have hpo : probeOk env packet = true := by simp [probeOk, hp]
          rw [hpo]
          dsimp only
          simp [audioAppends_length env rest]
      | error e =>
          have hpo : probeOk env packet = false := by simp [probeOk, hp]
          rw [hpo]
          dsimp only
          simp [audioAppends_length env rest]

theorem videoLoop_ok_calls {ε : Type} (env : Env ε) :
    ∀ frames : List Frame, (videoLoop env frames).2 = .ok () →
      (videoLoop env frames).1 =
        frames.map fun f => MuxCall.videoFrame f.data (videoTimestamp f.pts) f.key
  | [], _ => rfl
  | frame :: rest, h => by
      unfold videoLoop at h ⊢
      dsimp only at h ⊢
      by_cases hacc : env.accept (MuxCall.videoFrame frame.data (videoTimestamp frame.pts) frame.key) = true
      · rw [if_pos hacc] at h ⊢
        simp only [List.map_cons]
        exact congrArg _ (videoLoop_ok_calls env rest h)
      · rw [if_neg hacc] at h
        exact absurd h (by simp)

theorem videoLoop_all_video {ε : Type} (env : Env ε) :
    ∀ frames : List Frame, (videoLoop env frames).1.all isVideoFrame = true
  | [] => rfl
  | frame :: rest => by
      unfold videoLoop
      dsimp only
      split
      · simp [isVideoFrame, videoLoop_all_video env rest]
      · simp [isVideoFrame]

theorem audioAppends_all_audio {ε : Type} (env : Env ε) :
    ∀ (packets : List (List Nat)) (offset : Nat),
      (audioAppends env packets offset).all isAudioFrame = true
  | [], _ => rfl
  | packet :: rest, offset => by
      conv_lhs => unfold audioAppends
      cases hp : env.getNbSamples packet with
      | ok samples => simp [isAudioFrame, audioAppends_all_audio env rest]
      | error e => exact audioAppends_all_audio env rest offset

/-! ## Download lemmas -/

theorem downloadAll_all_ok {ε : Type} (fetch : List Char → Except ε (List Nat))
    (g : List Char → List Nat) :
    ∀ urls : List (List Char), (∀ u ∈ urls, fetch u = .ok (g u)) →
      downloadAll fetch urls = .ok ((urls.map g).flatten) ∧
        downloadCalls fetch urls = urls
  | [], _ => ⟨rfl, rfl⟩
  | url :: rest, h => by
      have hu : fetch url = .ok (g url) := h url (List.mem_cons_self url rest)
      have ih := downloadAll_all_ok fetch g rest fun u hm => h u (List.mem_cons_of_mem url hm)
      constructor
      · unfold downloadAll
        rw [hu, ih.1]
        simp
      · unfold downloadCalls
        rw [hu]
        exact congrArg _ ih.2

theorem downloadAll_error_after_ok {ε : Type} (fetch : List Char → Except ε (List Nat))
    (tail : List (List Char)) (e : ε) (he : downloadAll fetch tail = .error e) :
    ∀ head : List (List Char), (∀ u ∈ head, ∃ b, fetch u = .ok b) →
      downloadAll fetch (head ++ tail) = .error e
  | [], _ => he
  | url :: rest, h => by
      obtain ⟨b, hb⟩ := h url (List.mem_cons_self url rest)
      have ih := downloadAll_error_after_ok fetch tail e he rest
        fun u hm => h u (List.mem_cons_of_mem url hm)
      rw [List.cons_append]
      unfold downloadAll
      rw [hb, ih]

theorem downloadCalls_after_ok {ε : Type} (fetch : List Char → Except ε (List Nat))
    (tail : List (List Char)) :
    ∀ head : List (List Char), (∀ u ∈ head, ∃ b, fetch u = .ok b) →
      downloadCalls fetch (head ++ tail) = head ++ downloadCalls fetch tail
  | [], _ => rfl
  | url :: rest, h => by
      obtain ⟨b, hb⟩ := h url (List.mem_cons_self url rest)
      have ih := downloadCalls_after_ok fetch tail rest
        fun u hm => h u (List.mem_cons_of_mem url hm)
      rw [List.cons_append]
      conv_lhs => unfold downloadCalls
      rw [hb]
      dsimp only
      rw [ih, List.cons_append]

theorem downloadCalls_le_urls {ε : Type} (fetch : List Char → Except ε (List Nat)) :
    ∀ urls : List (List Char), ∃ rest, downloadCalls fetch urls ++ rest = urls
  | [] => ⟨[], rfl⟩
  | url :: urls => by
      unfold downloadCalls
      cases hf : fetch url with
      | ok b =>
          obtain ⟨rest, hrest⟩ := downloadCalls_le_urls fetch urls
          exact ⟨rest, by rw [List.cons_append, hrest]⟩
      | error e => exact ⟨urls, rfl⟩

/-! ## Ordering lemmas on traces -/

theorem noInterleave_of_no_audio :
    ∀ l : List MuxCall, (l.all fun c => !isAudioFrame c) = true → noInterleave l = true
  | [], _ => rfl
  | c :: rest, h => by
      unfold noInterleave
      have hr : (rest.all fun c => !isAudioFrame c) = true := by
        simp only [List.all_cons, Bool.and_eq_true] at h
        exact h.2
      rw [noInterleave_of_no_audio rest hr]
      simp [hr]

theorem noInterleave_append (l₂ : List MuxCall) (h₂ : noInterleave l₂ = true) :
    ∀ l₁ : List MuxCall, (l₁.all fun c => !isVideoFrame c) = true →
      noInterleave (l₁ ++ l₂) = true
  | [], _ => h₂
  | c :: rest, h => by
      simp only [List.all_cons, Bool.and_eq_true] at h
      rw [List.cons_append]
      unfold noInterleave
      rw [noInterleave_append l₂ h₂ rest h.2]
      simp [h.1]

theorem noInterleave_of_no_video :
    ∀ l : List MuxCall, (l.all fun c => !isVideoFrame c) = true → noInterleave l = true
  | [], _ => rfl
  | c :: rest, h => by
      simp only [List.all_cons, Bool.and_eq_true] at h
      unfold noInterleave
      rw [noInterleave_of_no_video rest h.2]
      simp [h.1]

theorem noVideoBeforeAudioTrack_of_no_video :
    ∀ l : List MuxCall, (l.all fun c => !isVideoFrame c) = true →
      noVideoBeforeAudioTrack l = true
  | [], _ => rfl
  | c :: rest, h => by
      simp only [List.all_cons, Bool.and_eq_true] at h
      have ih := noVideoBeforeAudioTrack_of_no_video rest h.2
      cases c with
      | addVideoTrack w ht => exact ih
      | setColor => exact ih
      | addAudioTrack sr ch => rfl
      | audioFrame d t => exact ih
      | videoFrame d t k => simp [isVideoFrame] at h
      | finalize d => exact ih

theorem all_audio_not_video {l : List MuxCall} (h : l.all isAudioFrame = true) :
    (l.all fun c => !isVideoFrame c) = true := by
  rw [List.all_eq_true] at h ⊢
  intro c hc
  have hc2 := h c hc
  cases c <;> simp_all [isAudioFrame, isVideoFrame]

theorem all_video_not_audio {l : List MuxCall} (h : l.all isVideoFrame = true) :
    (l.all fun c => !isAudioFrame c) = true := by
  rw [List.all_eq_true] at h ⊢
  intro c hc
  have hc2 := h c hc
  cases c <;> simp_all [isAudioFrame, isVideoFrame]

theorem all_audio_not_finalize {l : List MuxCall} (h : l.all isAudioFrame = true) :
    l.filter isFinalize = [] := by
  rw [List.filter_eq_nil_iff]
  rw [List.all_eq_true] at h
  intro c hc
  have hc2 := h c hc
  cases c <;> simp_all [isAudioFrame, isFinalize]

theorem all_video_not_finalize {l : List MuxCall} (h : l.all isVideoFrame = true) :
    l.filter isFinalize = [] := by
  rw [List.filter_eq_nil_iff]
  rw [List.all_eq_true] at h
  intro c hc
  have hc2 := h c hc
  cases c <;> simp_all [isVideoFrame, isFinalize]

/-! ## Shapes of the `encode_video` trace -/

/-- Every trace `encode_video` can produce, on any path (success or any
early error return): the empty trace, the two-call prefix ending at
`set_color`, the three-call prefix ending at the audio-track creation, or
that prefix followed by audio appends, then possibly video appends, then
possibly the finalize call. -/
theorem encode_video_trace_cases {ε : Type} (env : Env ε) :
    (encode_video env).1 = [] ∨
    (∃ w ht, (encode_video env).1 = [MuxCall.addVideoTrack w ht, MuxCall.setColor]) ∨
    (∃ w ht, (encode_video env).1 =
      [MuxCall.addVideoTrack w ht, MuxCall.setColor,
        MuxCall.addAudioTrack (sample_rate : Int) 2]) ∨
    (∃ w ht packets, (encode_video env).1 =
      [MuxCall.addVideoTrack w ht, MuxCall.setColor,
        MuxCall.addAudioTrack (sample_rate : Int) 2] ++ (audioLoop env packets 0).1) ∨
    (∃ w ht packets frames, (encode_video env).1 =
      [MuxCall.addVideoTrack w ht, MuxCall.setColor,
        MuxCall.addAudioTrack (sample_rate : Int) 2] ++ (audioLoop env packets 0).1 ++
          (videoLoop env frames).1) ∨
    (∃ w ht packets frames, (encode_video env).1 =
      [MuxCall.addVideoTrack w ht, MuxCall.setColor,
        MuxCall.addAudioTrack (sample_rate : Int) 2] ++ (audioLoop env packets 0).1 ++
          (videoLoop env frames).1 ++
            [MuxCall.finalize ((audioLoop env packets 0).2.1 / 100000)]) := by
  unfold encode_video
  dsimp only
  split
  · exact Or.inl rfl
  split
  · exact Or.inl rfl
  split
  · exact Or.inl rfl
  split
  · exact Or.inl rfl
  split
  · exact Or.inl rfl
  split
  · exact Or.inl rfl
  split
  · exact Or.inr (Or.inl ⟨_, _, rfl⟩)
  split
  · exact Or.inr (Or.inl ⟨_, _, rfl⟩)
  split
  · exact Or.inr (Or.inr (Or.inl ⟨_, _, rfl⟩))
  split
  · exact Or.inr (Or.inr (Or.inl ⟨_, _, rfl⟩))
  split
  · exact Or.inr (Or.inr (Or.inl ⟨_, _, rfl⟩))
  split
  · exact Or.inr (Or.inr (Or.inr (Or.inl ⟨_, _, _, rfl⟩)))
  split
  · exact Or.inr (Or.inr (Or.inr (Or.inr (Or.inl ⟨_, _, _, _, rfl⟩))))
  split
  · exact Or.inr (Or.inr (Or.inr (Or.inr (Or.inr ⟨_, _, _, _, rfl⟩))))
  · exact Or.inr (Or.inr (Or.inr (Or.inr (Or.inr ⟨_, _, _, _, rfl⟩))))

/-- On a successful run both loops completed and the trace is exactly the
three track-setup calls, the audio appends, the video appends, and the one
finalize call. -/
theorem encode_video_ok_shape {ε : Type} (env : Env ε) :
    (encode_video env).2 = .ok () →
    ∃ w ht packets frames,
      (audioLoop env packets 0).2.2 = .ok () ∧
      (videoLoop env frames).2 = .ok () ∧
      (encode_video env).1 =
        [MuxCall.addVideoTrack w ht, MuxCall.setColor,
          MuxCall.addAudioTrack (sample_rate : Int) 2] ++ (audioLoop env packets 0).1 ++
            (videoLoop env frames).1 ++
              [MuxCall.finalize ((audioLoop env packets 0).2.1 / 100000)] := by
  unfold encode_video
  dsimp only
  split
  · intro h; simp at h
  split
  · intro h; simp at h
  split
  · intro h; simp at h
  split
  · intro h; simp at h
  split
  · intro h; simp at h
  split
  · intro h; simp at h
  split
  · intro h; simp at h
  split
  · intro h; simp at h
  split
  · intro h; simp at h
  split
  · intro h; simp at h
  split
  · intro h; simp at h
  split
  · intro h; simp at h
  split
  · intro h; simp at h
  split
  · intro _
    refine ⟨_, _, _, _, ?_, ?_, rfl⟩ <;> assumption
  · intro h; simp at h

/-! ## Newline-splitting lemmas -/

theorem splitNewline_ne_nil : ∀ p : List Char, splitNewline p ≠ []
  | [] => by simp [splitNewline]
  | c :: rest => by
      unfold splitNewline
      split
      · simp
      · split
        · simp
        · simp

theorem splitNewline_append_newline : ∀ p : List Char,
    splitNewline (p ++ ['\n']) = splitNewline p ++ [[]]
  | [] => rfl
  | c :: rest => by
      rw [List.cons_append]
      unfold splitNewline
      by_cases hc : c = '\n'
      · rw [if_pos hc, if_pos hc, splitNewline_append_newline rest]
        rfl
      · rw [if_neg hc, if_neg hc, splitNewline_append_newline rest]
        cases h : splitNewline rest with
        | nil => exact absurd h (splitNewline_ne_nil rest)
        | cons l ls => simp

theorem playlistUrls_append_newline (p : List Char) :
    playlistUrls (p ++ ['\n']) = playlistUrls p ++ [[]] := by
  unfold playlistUrls
  rw [splitNewline_append_newline, List.filter_append]
  rfl

/-! ## Error-propagation lemmas for `encode_video` -/

theorem encode_video_manifest_error {ε : Type} (env : Env ε) (e : ε)
    (h : env.manifestText = .error e) :
    encode_video env = ([], .error (.external e)) := by
  unfold encode_video
  rw [h]

theorem encode_video_parse_error {ε : Type} (env : Env ε) (m : List Char) (e : ε)
    (h1 : env.manifestText = .ok m) (h2 : env.parseManifest m = .error e) :
    encode_video env = ([], .error (.external e)) := by
  unfold encode_video
  rw [h1]
  dsimp only
  rw [h2]

theorem encode_video_playlist_error {ε : Type} (env : Env ε) (m url : List Char) (e : ε)
    (h1 : env.manifestText = .ok m) (h2 : env.parseManifest m = .ok url)
    (h3 : env.playlistText url = .error e) :
    encode_video env = ([], .error (.external e)) := by
  unfold encode_video
  rw [h1]
  dsimp only
  rw [h2]
  dsimp only
  rw [h3]

theorem encode_video_download_error {ε : Type} (env : Env ε) (m url pl : List Char)
    (ib : List Nat) (img : RgbImage) (frames : List Frame) (e : ε)
    (h1 : env.manifestText = .ok m) (h2 : env.parseManifest m = .ok url)
    (h3 : env.playlistText url = .ok pl) (h4 : env.canCreateSegment = true)
    (h5 : env.imageBytes = .ok ib) (h6 : env.decodeImage ib = .ok img)
    (h7 : env.accept MuxCall.setColor = true)
    (h8 : env.vpxFrames (rgb_to_i420 img) = .ok frames)
    (h9 : env.decoderNew = .ok ())
    (h10 : downloadAll env.fetchSegment (playlistUrls pl) = .error e) :
    encode_video env =
      ([MuxCall.addVideoTrack img.width img.height, MuxCall.setColor,
        MuxCall.addAudioTrack (sample_rate : Int) 2], .error (.external e)) := by
  unfold encode_video
  rw [h1]
  dsimp only
  rw [h2]
  dsimp only
  rw [h3]
  dsimp only
  rw [h4]
  simp only [Bool.not_true, Bool.false_eq_true, if_false]
  rw [h5]
  dsimp only
  rw [h6]
  dsimp only
  rw [h7]
  simp only [Bool.not_true, Bool.false_eq_true, if_false]
  rw [h8]
  dsimp only
  rw [h9]
  dsimp only
  rw [h10]

/-! ## Claim C1 -/

/-- **C1, counterexample.**  The claim reads `>> 8` as an arithmetic
(floor) shift.  The code divides with Rust `/`, which truncates toward
zero, and the two differ on negative intermediate values: at RGB
(255, 255, 0) the intermediate U value is -28432, the code produces
chroma U `clamp(-28432 / 256 + 128) = 17`, while the floor-shift formula
of the claim gives `clamp((-28432 >> 8) + 128) = 16`. -/
theorem spec_c1_cex :
    (uPlane yellowImage)[0]? = some 17 ∧
    chroma_u_spec 255 255 0 = 16 ∧
    (uPlane yellowImage)[0]? ≠ some (chroma_u_spec 255 255 0) := by decide

/-- **C1 (amended).**  For every pixel sampled at even coordinates
`(2*cx, 2*cy)` of the decoded cover image, the chroma samples produced by
`rgb_to_i420` are `clamp((-38R - 74G + 112B + 128) / 256 + 128)` and
`clamp((112R - 94G - 18B + 128) / 256 + 128)`, where `/` is the Rust
`i32` division truncating toward zero (not an arithmetic floor shift) and
`clamp` saturates to [0, 255]. -/
theorem spec_c1 (img : RgbImage) (cx cy : Nat)
    (hx : 2 * cx < img.width) (hy : 2 * cy < img.height) :
    (uPlane img)[cy * ((img.width + 1) / 2) + cx]? =
      some (chroma_u_formula (img.pixel (2 * cx) (2 * cy)).1
        (img.pixel (2 * cx) (2 * cy)).2.1 (img.pixel (2 * cx) (2 * cy)).2.2) ∧
    (vPlane img)[cy * ((img.width + 1) / 2) + cx]? =
      some (chroma_v_formula (img.pixel (2 * cx) (2 * cy)).1
        (img.pixel (2 * cx) (2 * cy)).2.1 (img.pixel (2 * cx) (2 * cy)).2.2) := by
  have hcx : cx < (img.width + 1) / 2 := by omega
  have hcy : cy < (img.height + 1) / 2 := by omega
  constructor
  · rw [uPlane_eq_grid,
      grid_get (fun cx cy => uAt img (cx * 2) (cy * 2)) _ cx hcx
        (List.range ((img.height + 1) / 2)) cy (by simpa using hcy),
      List.getElem_range]
    rw [Nat.mul_comm cx 2, Nat.mul_comm cy 2]
    rfl
  · rw [vPlane_eq_grid,
      grid_get (fun cx cy => vAt img (cx * 2) (cy * 2)) _ cx hcx
        (List.range ((img.height + 1) / 2)) cy (by simpa using hcy),
      List.getElem_range]
    rw [Nat.mul_comm cx 2, Nat.mul_comm cy 2]
    rfl

/-- Witness for C1 at the 4×4 image and chroma coordinates (1, 1). -/
theorem spec_c1_witness :
    (uPlane img4)[1 * 2 + 1]? = some (chroma_u_formula 200 10 30) ∧
    (vPlane img4)[1 * 2 + 1]? = some (chroma_v_formula 200 10 30) :=
  ⟨(spec_c1 img4 1 1 (by decide) (by decide)).1,
    (spec_c1 img4 1 1 (by decide) (by decide)).2⟩

/-! ## Claim C2 -/

/-- **C2, counterexample.**  On a successful assembly the first call the
writer receives is the video-track creation (line 80), not the audio-track
creation (line 129): the claimed sequence starts with the wrong track. -/
theorem spec_c2_cex :
    (encode_video envA).2 = .ok () ∧
    (encode_video envA).1.head? = some (MuxCall.addVideoTrack 1 1) ∧
    (encode_video envA).1.head? ≠ some (MuxCall.addAudioTrack 48000 2) ∧
    MuxCall.addAudioTrack 48000 2 ∈ (encode_video envA).1 := by decide

/-- **C2 (amended).**  For every successful assembly the writer receives
exactly: video track created, its color metadata set, audio track created,
then one append per successfully probed audio packet in input order, then
the video-frame appends in production order, then exactly one finalize
call; and on all inputs no video-frame append ever precedes the
audio-track creation call. -/
theorem spec_c2 {ε : Type} :
    (∀ env : Env ε, (encode_video env).2 = .ok () →
      ∃ (w ht : Nat) (packets : List (List Nat)) (frames : List Frame),
        (encode_video env).1 =
          [MuxCall.addVideoTrack w ht, MuxCall.setColor,
            MuxCall.addAudioTrack (sample_rate : Int) 2] ++ audioAppends env packets 0 ++
            (frames.map fun f => MuxCall.videoFrame f.data (videoTimestamp f.pts) f.key) ++
            [MuxCall.finalize ((audioLoop env packets 0).2.1 / 100000)] ∧
        (audioAppends env packets 0).length = (packets.filter (probeOk env)).length ∧
        ((encode_video env).1.filter isFinalize).length = 1) ∧
    (∀ env : Env ε, noVideoBeforeAudioTrack (encode_video env).1 = true) := by
  constructor
  · intro env h
    obtain ⟨w, ht, packets, frames, ha, hv, htr⟩ := encode_video_ok_shape env h
    have hac := audioLoop_ok_calls env packets 0 ha
    have hvc := videoLoop_ok_calls env frames hv
    refine ⟨w, ht, packets, frames, ?_, audioAppends_length env packets 0, ?_⟩
    · rw [htr, hac, hvc]
    · rw [htr, hac, hvc]
      simp only [List.filter_append]
      have hall : (List.map (fun f => MuxCall.videoFrame f.data (videoTimestamp f.pts) f.key)
          frames).all isVideoFrame = true := by
        refine List.all_eq_true.mpr fun c hc => ?_
        obtain ⟨f, hf, hcf⟩ := List.mem_map.1 hc
        rw [← hcf]
        rfl
      rw [all_audio_not_finalize (audioAppends_all_audio env packets 0),
        all_video_not_finalize hall]
      simp [isFinalize]
  · intro env
    rcases encode_video_trace_cases env with h | ⟨w, ht, h⟩ | ⟨w, ht, h⟩ | ⟨w, ht, packets, h⟩ |
      ⟨w, ht, packets, frames, h⟩ | ⟨w, ht, packets, frames, h⟩ <;> rw [h] <;> rfl

/-- Witness for C2 at `envA`, whose run succeeds. -/
theorem spec_c2_witness :
    (∃ (w ht : Nat) (packets : List (List Nat)) (frames : List Frame),
      (encode_video envA).1 =
        [MuxCall.addVideoTrack w ht, MuxCall.setColor,
          MuxCall.addAudioTrack (sample_rate : Int) 2] ++ audioAppends envA packets 0 ++
          (frames.map fun f => MuxCall.videoFrame f.data (videoTimestamp f.pts) f.key) ++
          [MuxCall.finalize ((audioLoop envA packets 0).2.1 / 100000)] ∧
      (audioAppends envA packets 0).length = (packets.filter (probeOk envA)).length ∧
      ((encode_video envA).1.filter isFinalize).length = 1) ∧
    noVideoBeforeAudioTrack (encode_video envA).1 = true :=
  ⟨spec_c2.1 envA (by decide), spec_c2.2 envA⟩

/-! ## Claim C3 -/

/-- **C3, counterexample.**  The claim says the clock advances by
`sample_count * time_units_per_second / sample_rate` evaluated exactly.
The code advances by `samples * ns_per_sample` where
`ns_per_sample = ns_per_sec / sample_rate = 2083` is pre-divided with
integer division: one packet of 960 samples advances the clock by
960 * 2083 = 1999680, while the exact value is
960 * 100000000 / 48000 = 2000000. -/
theorem spec_c3_cex :
    (audioLoop envA [[3]] 0).2.1 = 1999680 ∧
    (960 * ns_per_sec : ℚ) / (sample_rate : ℚ) = 2000000 ∧
    960 * ns_per_sec / sample_rate = 2000000 ∧
    (1999680 : Nat) ≠ 2000000 :=
  ⟨by decide, by norm_num [ns_per_sec, sample_rate], by decide, by decide⟩

/-- **C3 (amended).**  The running clock never decreases across any packet
sequence; a successfully probed and accepted packet advances it by exactly
`samples * (ns_per_sec / sample_rate)` (the quotient taken with integer
division, 2083); a packet whose probe fails leaves the loop state, and in
particular the clock, unchanged. -/
theorem spec_c3 {ε : Type} (env : Env ε) :
    (∀ (packets : List (List Nat)) (offset : Nat),
      offset ≤ (audioLoop env packets offset).2.1) ∧
    (∀ (packet : List Nat) (rest : List (List Nat)) (offset samples : Nat),
      env.getNbSamples packet = .ok samples →
      env.accept (MuxCall.audioFrame packet offset) = true →
      audioLoop env (packet :: rest) offset =
        (MuxCall.audioFrame packet offset ::
            (audioLoop env rest (offset + samples * (ns_per_sec / sample_rate))).1,
          (audioLoop env rest (offset + samples * (ns_per_sec / sample_rate))).2)) ∧
    (∀ (packet : List Nat) (rest : List (List Nat)) (offset : Nat) (e : ε),
      env.getNbSamples packet = .error e →
      audioLoop env (packet :: rest) offset = audioLoop env rest offset) :=
  ⟨audioLoop_offset_le env,
    fun p r o s h hacc => audioLoop_step env p r o s h hacc,
    fun p r o e h => audioLoop_skip env p r o e h⟩

/-- Witness for C3: a start offset of 5 never decreases, a 960-sample
packet steps the clock, and the failing packet `[2]` is skipped. -/
theorem spec_c3_witness :
    5 ≤ (audioLoop envA [[3]] 5).2.1 ∧
    audioLoop envA [[3]] 0 =
      (MuxCall.audioFrame [3] 0 ::
          (audioLoop envA [] (0 + 960 * (ns_per_sec / sample_rate))).1,
        (audioLoop envA [] (0 + 960 * (ns_per_sec / sample_rate))).2) ∧
    audioLoop envB [[2], [3]] 0 = audioLoop envB [[3]] 0 :=
  ⟨(spec_c3 envA).1 [[3]] 5,
    (spec_c3 envA).2.1 [3] [] 0 960 rfl rfl,
    (spec_c3 envB).2.2 [2] [[3]] 0 7 rfl⟩

/-! ## Claim C4 -/

/-- **C4.**  On every execution path, every audio-frame append the writer
receives precedes every video-frame append: a trace position holding a
video-frame append is never followed by an audio-frame append. -/
theorem spec_c4 {ε : Type} (env : Env ε) : noInterleave (encode_video env).1 = true := by
  rcases encode_video_trace_cases env with h | ⟨w, ht, h⟩ | ⟨w, ht, h⟩ | ⟨w, ht, packets, h⟩ |
    ⟨w, ht, packets, frames, h⟩ | ⟨w, ht, packets, frames, h⟩ <;> rw [h]
  · rfl
  · rfl
  · rfl
  · refine noInterleave_of_no_video _ ?_
    rw [List.all_append, all_audio_not_video (audioLoop_all_audio env packets 0),
      Bool.and_true]
    rfl
  · refine noInterleave_append _ ?_ _ ?_
    · exact noInterleave_of_no_audio _ (all_video_not_audio (videoLoop_all_video env frames))
    · rw [List.all_append, all_audio_not_video (audioLoop_all_audio env packets 0),
        Bool.and_true]
      rfl
  · rw [List.append_assoc _ (videoLoop env frames).1]
    refine noInterleave_append _ ?_ _ ?_
    · refine noInterleave_of_no_audio _ ?_
      rw [List.all_append, all_video_not_audio (videoLoop_all_video env frames),
        Bool.true_and]
      rfl
    · rw [List.all_append, all_audio_not_video (audioLoop_all_audio env packets 0),
        Bool.and_true]
      rfl

/-- Witness for C4 at `envA`. -/
theorem spec_c4_witness : noInterleave (encode_video envA).1 = true := spec_c4 envA

/-! ## Claim C5 -/

/-- **C5.**  A packet whose sample count the probe cannot determine is
skipped without failing the loop: it is not appended and the clock does
not advance (the loop state is exactly as if the packet were absent).  In
particular a 3-packet stream whose 2nd packet is undeterminable produces
exactly 2 audio appends and a final clock equal to the sum of the other
two durations. -/
theorem spec_c5 {ε : Type} (env : Env ε) :
    (∀ (packet : List Nat) (rest : List (List Nat)) (offset : Nat) (e : ε),
      env.getNbSamples packet = .error e →
      audioLoop env (packet :: rest) offset = audioLoop env rest offset) ∧
    (∀ (p1 p2 p3 : List Nat) (s1 s3 : Nat) (e : ε),
      env.getNbSamples p1 = .ok s1 → env.getNbSamples p2 = .error e →
      env.getNbSamples p3 = .ok s3 → (∀ c, env.accept c = true) →
      audioLoop env [p1, p2, p3] 0 =
        ([MuxCall.audioFrame p1 0, MuxCall.audioFrame p3 (s1 * ns_per_sample)],
          s1 * ns_per_sample + s3 * ns_per_sample, .ok ())) := by
  refine ⟨fun p r o e h => audioLoop_skip env p r o e h, ?_⟩
  intro p1 p2 p3 s1 s3 e h1 h2 h3 hacc
  rw [audioLoop_step env p1 _ 0 s1 h1 (hacc _), audioLoop_skip env p2 _ _ e h2,
    audioLoop_step env p3 _ _ s3 h3 (hacc _)]
  simp [audioLoop]

/-- Witness for C5: in `envB`, the stream `[[1], [2], [3]]` whose middle
packet fails the probe yields exactly the two appends for `[1]` and `[3]`
and the clock advanced by their two durations. -/
theorem spec_c5_witness :
    audioLoop envB [[2], [3]] 5 = audioLoop envB [[3]] 5 ∧
    audioLoop envB [[1], [2], [3]] 0 =
      ([MuxCall.audioFrame [1] 0, MuxCall.audioFrame [3] (960 * ns_per_sample)],
        960 * ns_per_sample + 960 * ns_per_sample, .ok ()) :=
  ⟨(spec_c5 envB).1 [2] [[3]] 5 7 rfl,
    (spec_c5 envB).2 [1] [2] [3] 960 960 7 rfl rfl rfl (fun _ => rfl)⟩

/-! ## Claim C6 -/

/-- **C6.**  For every decoded image, the luma plane has exactly
`width * height` samples in row-major order, each equal to the per-pixel
luma formula; both chroma planes have exactly
`ceil(width/2) * ceil(height/2)` samples, obtained by sampling every 2nd
pixel in both axes starting at (0, 0), each equal to the per-pixel chroma
formulas. -/
theorem spec_c6 (img : RgbImage) :
    (lumaPlane img).length = img.width * img.height ∧
    (uPlane img).length = ((img.width + 1) / 2) * ((img.height + 1) / 2) ∧
    (vPlane img).length = ((img.width + 1) / 2) * ((img.height + 1) / 2) ∧
    (∀ x y, x < img.width → y < img.height →
      (lumaPlane img)[y * img.width + x]? =
        some (luma_formula (img.pixel x y).1 (img.pixel x y).2.1 (img.pixel x y).2.2)) ∧
    (∀ cx cy, cx < (img.width + 1) / 2 → cy < (img.height + 1) / 2 →
      (uPlane img)[cy * ((img.width + 1) / 2) + cx]? =
        some (chroma_u_formula (img.pixel (2 * cx) (2 * cy)).1
          (img.pixel (2 * cx) (2 * cy)).2.1 (img.pixel (2 * cx) (2 * cy)).2.2) ∧
      (vPlane img)[cy * ((img.width + 1) / 2) + cx]? =
        some (chroma_v_formula (img.pixel (2 * cx) (2 * cy)).1
          (img.pixel (2 * cx) (2 * cy)).2.1 (img.pixel (2 * cx) (2 * cy)).2.2)) := by
  refine ⟨?_, ?_, ?_, ?_, ?_⟩
  · rw [lumaPlane, grid_length, List.length_range, Nat.mul_comm]
  · rw [uPlane_eq_grid, grid_length, List.length_range, Nat.mul_comm]
  · rw [vPlane_eq_grid, grid_length, List.length_range, Nat.mul_comm]
  · intro x y hx hy
    rw [lumaPlane,
      grid_get (fun x y => lumaAt img x y) _ x hx (List.range img.height) y (by simpa using hy),
      List.getElem_range]
    rfl
  · intro cx cy hcx hcy
    constructor
    · rw [uPlane_eq_grid,
        grid_get (fun cx cy => uAt img (cx * 2) (cy * 2)) _ cx hcx
          (List.range ((img.height + 1) / 2)) cy (by simpa using hcy),
        List.getElem_range]
      rw [Nat.mul_comm cx 2, Nat.mul_comm cy 2]
      rfl
    · rw [vPlane_eq_grid,
        grid_get (fun cx cy => vAt img (cx * 2) (cy * 2)) _ cx hcx
          (List.range ((img.height + 1) / 2)) cy (by simpa using hcy),
        List.getElem_range]
      rw [Nat.mul_comm cx 2, Nat.mul_comm cy 2]
      rfl

/-- Witness for C6: the 4×4 solid-color image has 2×2 chroma planes and
its samples equal direct formula evaluation. -/
theorem spec_c6_witness :
    (lumaPlane img4).length = 16 ∧
    (uPlane img4).length = 4 ∧
    (vPlane img4).length = 4 ∧
    (lumaPlane img4)[2 * 4 + 3]? = some (luma_formula 200 10 30) ∧
    (uPlane img4)[0]? = some (chroma_u_formula 200 10 30) ∧
    (vPlane img4)[1 * 2 + 1]? = some (chroma_v_formula 200 10 30) :=
  ⟨(spec_c6 img4).1, (spec_c6 img4).2.1, (spec_c6 img4).2.2.1,
    (spec_c6 img4).2.2.2.1 3 2 (by decide) (by decide),
    ((spec_c6 img4).2.2.2.2 0 0 (by decide) (by decide)).1,
    ((spec_c6 img4).2.2.2.2 1 1 (by decide) (by decide)).2⟩

/-! ## Claim C7 -/

/-- **C7.**  The playlist body is split on newlines; exactly the lines not
beginning with the comment marker are retained, in file order (the
retained list is a sublist of the split, and a line is retained iff it is
a split line not starting with the marker); the retained urls are fetched
once each, in that order, and their bytes concatenated in that order. -/
theorem spec_c7 :
    (∀ p : List Char, (playlistUrls p).Sublist (splitNewline p) ∧
      ∀ line, line ∈ playlistUrls p ↔ line ∈ splitNewline p ∧ startsWithHash line = false) ∧
    (∀ (ε : Type) (fetch : List Char → Except ε (List Nat)) (g : List Char → List Nat)
      (urls : List (List Char)), (∀ u ∈ urls, fetch u = .ok (g u)) →
      downloadAll fetch urls = .ok ((urls.map g).flatten) ∧
        downloadCalls fetch urls = urls) := by
  constructor
  · intro p
    refine ⟨List.filter_sublist _, fun line => ?_⟩
    simp [playlistUrls, List.mem_filter]
  · intro ε fetch g urls h
    exact downloadAll_all_ok fetch g urls h

/-- Witness for C7 on scenario A: 2 segment lines and 1 comment line give
exactly the two segments, fetched in file order and concatenated. -/
theorem spec_c7_witness :
    (['a'] ∈ playlistUrls pl7 ↔ ['a'] ∈ splitNewline pl7 ∧ startsWithHash ['a'] = false) ∧
    (['#', 'c'] ∈ playlistUrls pl7 ↔
      ['#', 'c'] ∈ splitNewline pl7 ∧ startsWithHash ['#', 'c'] = false) ∧
    downloadAll fetch7 (playlistUrls pl7) = .ok (((playlistUrls pl7).map g7).flatten) ∧
    downloadCalls fetch7 (playlistUrls pl7) = playlistUrls pl7 :=
  ⟨(spec_c7.1 pl7).2 ['a'], (spec_c7.1 pl7).2 ['#', 'c'],
    (spec_c7.2 Nat fetch7 g7 (playlistUrls pl7) (by decide)).1,
    (spec_c7.2 Nat fetch7 g7 (playlistUrls pl7) (by decide)).2⟩

/-! ## Claim C8 -/

/-- **C8.**  A failed manifest fetch, manifest parse, or playlist fetch
returns that error with an empty writer trace (no partial output); a
failed segment fetch aborts the download at that segment (no later
segment is fetched) with the first error, and once the pipeline reaches
the join point the whole assembly returns exactly that error with no frame
ever appended and no finalize call; every segment url is fetched at most
once, in playlist order (the fetched urls are an initial segment of the
playlist), so no retry occurs. -/
theorem spec_c8 :
    (∀ (ε : Type) (env : Env ε) (e : ε), env.manifestText = .error e →
      encode_video env = ([], .error (.external e))) ∧
    (∀ (ε : Type) (env : Env ε) (m : List Char) (e : ε),
      env.manifestText = .ok m → env.parseManifest m = .error e →
      encode_video env = ([], .error (.external e))) ∧
    (∀ (ε : Type) (env : Env ε) (m url : List Char) (e : ε),
      env.manifestText = .ok m → env.parseManifest m = .ok url →
      env.playlistText url = .error e →
      encode_video env = ([], .error (.external e))) ∧
    (∀ (ε : Type) (fetch : List Char → Except ε (List Nat))
      (head : List (List Char)) (u : List Char) (tail : List (List Char)) (e : ε),
      (∀ x ∈ head, ∃ b, fetch x = .ok b) → fetch u = .error e →
      downloadAll fetch (head ++ u :: tail) = .error e ∧
        downloadCalls fetch (head ++ u :: tail) = head ++ [u]) ∧
    (∀ (ε : Type) (env : Env ε) (m url pl : List Char) (ib : List Nat) (img : RgbImage)
      (frames : List Frame) (e : ε),
      env.manifestText = .ok m → env.parseManifest m = .ok url →
      env.playlistText url = .ok pl → env.canCreateSegment = true →
      env.imageBytes = .ok ib → env.decodeImage ib = .ok img →
      env.accept MuxCall.setColor = true → env.vpxFrames (rgb_to_i420 img) = .ok frames →
      env.decoderNew = .ok () →
      downloadAll env.fetchSegment (playlistUrls pl) = .error e →
      encode_video env =
        ([MuxCall.addVideoTrack img.width img.height, MuxCall.setColor,
          MuxCall.addAudioTrack (sample_rate : Int) 2], .error (.external e))) ∧
    (∀ (ε : Type) (fetch : List Char → Except ε (List Nat)) (urls : List (List Char)),
      ∃ rest, downloadCalls fetch urls ++ rest = urls) := by
  refine ⟨?_, ?_, ?_, ?_, ?_, ?_⟩
  · intro ε env e h
    exact encode_video_manifest_error env e h
  · intro ε env m e h1 h2
    exact encode_video_parse_error env m e h1 h2
  · intro ε env m url e h1 h2 h3
    exact encode_video_playlist_error env m url e h1 h2 h3
  · intro ε fetch head u tail e hhead hu
    have he : downloadAll fetch (u :: tail) = .error e := by
      unfold downloadAll
      rw [hu]
    have hc : downloadCalls fetch (u :: tail) = [u] := by
      unfold downloadCalls
      rw [hu]
    refine ⟨downloadAll_error_after_ok fetch (u :: tail) e he head hhead, ?_⟩
    rw [downloadCalls_after_ok fetch (u :: tail) head hhead, hc]
  · intro ε env m url pl ib img frames e h1 h2 h3 h4 h5 h6 h7 h8 h9 h10
    exact encode_video_download_error env m url pl ib img frames e h1 h2 h3 h4 h5 h6 h7 h8 h9 h10
  · intro ε fetch urls
    exact downloadCalls_le_urls fetch urls

/-- Witness for C8: each failure mode at a concrete environment. -/
theorem spec_c8_witness :
    encode_video envManifestErr = ([], .error (.external 3)) ∧
    encode_video envParseErr = ([], .error (.external 4)) ∧
    encode_video envPlaylistErr = ([], .error (.external 5)) ∧
    (downloadAll fetch8 ([['a']] ++ ['b'] :: [['c']]) = .error 6 ∧
      downloadCalls fetch8 ([['a']] ++ ['b'] :: [['c']]) = [['a']] ++ [['b']]) ∧
    encode_video envSegErr =
      ([MuxCall.addVideoTrack 1 1, MuxCall.setColor,
        MuxCall.addAudioTrack (sample_rate : Int) 2], .error (.external 6)) ∧
    (∃ rest, downloadCalls fetch8 [['a'], ['b'], ['c']] ++ rest = [['a'], ['b'], ['c']]) :=
  ⟨spec_c8.1 Nat envManifestErr 3 rfl,
    spec_c8.2.1 Nat envParseErr ['m'] 4 rfl rfl,
    spec_c8.2.2.1 Nat envPlaylistErr ['m'] ['p'] 5 rfl rfl rfl,
    spec_c8.2.2.2.1 Nat fetch8 [['a']] ['b'] [['c']] 6
      (fun x hx => by rw [List.mem_singleton.mp hx]; exact ⟨[1], rfl⟩) rfl,
    spec_c8.2.2.2.2.1 Nat envSegErr ['m'] ['p'] ['u'] [1] ⟨1, 1, fun _ _ => (0, 0, 0)⟩
      [⟨[7], true, 0⟩] 6 rfl rfl rfl rfl rfl rfl rfl rfl rfl (by decide),
    spec_c8.2.2.2.2.2 Nat fetch8 [['a'], ['b'], ['c']]⟩

/-! ## Claim C9 -/

/-- **C9.**  Every video-frame append the writer receives carries the
timestamp `frame.pts as u64 * 1000000`, i.e. the pts scaled from the
encoder timebase (1/1000) to nanoseconds; for every pts that is
nonnegative and small enough not to wrap 64-bit arithmetic this equals
`pts * 1000000` exactly. -/
theorem spec_c9 :
    (∀ (ε : Type) (env : Env ε) (frames : List Frame),
      (videoLoop env frames).2 = .ok () →
      (videoLoop env frames).1 =
        frames.map fun f => MuxCall.videoFrame f.data (videoTimestamp f.pts) f.key) ∧
    (∀ pts : Int, 0 ≤ pts → pts * 1000000 < 2 ^ 64 →
      (videoTimestamp pts : Int) = pts * 1000000) := by
  constructor
  · intro ε env frames h
    exact videoLoop_ok_calls env frames h
  · intro pts h0 h1
    unfold videoTimestamp
    have hp : (2 : Int) ^ 64 = 18446744073709551616 := by norm_num
    have hpn : (2 : Nat) ^ 64 = 18446744073709551616 := by norm_num
    rw [hp] at h1
    rw [hp, hpn]
    omega

/-- Witness for C9: one frame with pts 3 is appended at timestamp
`videoTimestamp 3`, and that timestamp is 3000000 nanoseconds. -/
theorem spec_c9_witness :
    (videoLoop envA [⟨[7], true, 3⟩]).1 =
      [MuxCall.videoFrame [7] (videoTimestamp 3) true] ∧
    (videoTimestamp 3 : Int) = 3 * 1000000 :=
  ⟨spec_c9.1 Nat envA [⟨[7], true, 3⟩] rfl, spec_c9.2 3 (by decide) (by decide)⟩

/-! ## Claim C10 -/

/-- **C10.**  A playlist body ending in a newline splits into the lines of
the body plus one final empty line; the empty line does not start with the
comment marker, so it is retained as a segment url; when the real segments
all fetch successfully, a fetch is attempted for the empty url, and if
that fetch fails the download — and with it the whole assembly — fails
with that error. -/
theorem spec_c10 :
    (∀ p : List Char, splitNewline (p ++ ['\n']) = splitNewline p ++ [[]]) ∧
    (∀ p : List Char, playlistUrls (p ++ ['\n']) = playlistUrls p ++ [[]]) ∧
    (∀ (ε : Type) (fetch : List Char → Except ε (List Nat)) (p : List Char) (e : ε),
      (∀ u ∈ playlistUrls p, ∃ b, fetch u = .ok b) → fetch [] = .error e →
      [] ∈ downloadCalls fetch (playlistUrls (p ++ ['\n'])) ∧
        downloadAll fetch (playlistUrls (p ++ ['\n'])) = .error e) ∧
    (∀ (ε : Type) (env : Env ε) (m url pl : List Char) (ib : List Nat) (img : RgbImage)
      (frames : List Frame) (e : ε),
      env.manifestText = .ok m → env.parseManifest m = .ok url →
      env.playlistText url = .ok (pl ++ ['\n']) → env.canCreateSegment = true →
      env.imageBytes = .ok ib → env.decodeImage ib = .ok img →
      env.accept MuxCall.setColor = true → env.vpxFrames (rgb_to_i420 img) = .ok frames →
      env.decoderNew = .ok () →
      (∀ u ∈ playlistUrls pl, ∃ b, env.fetchSegment u = .ok b) →
      env.fetchSegment [] = .error e →
      (encode_video env).2 = .error (.external e)) := by
  refine ⟨splitNewline_append_newline, playlistUrls_append_newline, ?_, ?_⟩
  · intro ε fetch p e hok hfe
    have he : downloadAll fetch [[]] = .error e := by
      unfold downloadAll
      rw [hfe]
    have hc : downloadCalls fetch [[]] = [[]] := by
      unfold downloadCalls
      rw [hfe]
    rw [playlistUrls_append_newline]
    constructor
    · rw [downloadCalls_after_ok fetch [[]] (playlistUrls p) hok, hc]
      exact List.mem_append_right _ (by simp)
    · exact downloadAll_error_after_ok fetch [[]] e he (playlistUrls p) hok
  · intro ε env m url pl ib img frames e h1 h2 h3 h4 h5 h6 h7 h8 h9 hok hfe
    have h10 : downloadAll env.fetchSegment (playlistUrls (pl ++ ['\n'])) = .error e := by
      rw [playlistUrls_append_newline]
      refine downloadAll_error_after_ok _ [[]] e ?_ _ hok
      unfold downloadAll
      rw [hfe]
    rw [encode_video_download_error env m url (pl ++ ['\n']) ib img frames e
      h1 h2 h3 h4 h5 h6 h7 h8 h9 h10]

/-- Witness for C10 at the one-segment playlist body followed by a
trailing newline. -/
theorem spec_c10_witness :
    splitNewline (['u'] ++ ['\n']) = splitNewline ['u'] ++ [[]] ∧
    playlistUrls (['u'] ++ ['\n']) = playlistUrls ['u'] ++ [[]] ∧
    ([] ∈ downloadCalls env10.fetchSegment (playlistUrls (['u'] ++ ['\n'])) ∧
      downloadAll env10.fetchSegment (playlistUrls (['u'] ++ ['\n'])) = .error 6) ∧
    (encode_video env10).2 = .error (.external 6) :=
  ⟨spec_c10.1 ['u'], spec_c10.2.1 ['u'],
    spec_c10.2.2.1 Nat env10.fetchSegment ['u'] 6
      (fun u hu => by
        have hpl : playlistUrls ['u'] = [['u']] := rfl
        rw [hpl] at hu
        rw [List.mem_singleton.mp hu]
        exact ⟨[9], rfl⟩) rfl,
    spec_c10.2.2.2 Nat env10 ['m'] ['p'] ['u'] [1] ⟨1, 1, fun _ _ => (0, 0, 0)⟩
      [⟨[7], true, 0⟩] 6 rfl rfl rfl rfl rfl rfl rfl rfl rfl
      (fun u hu => by
        have hpl : playlistUrls ['u'] = [['u']] := rfl
        rw [hpl] at hu
        rw [List.mem_singleton.mp hu]
        exact ⟨[9], rfl⟩) rfl⟩
